import Mathlib

/-!
Verification development for `catalyst/utils/config.py`: experiment-config
loading, CLI override application, environment capture and config dumping.
The Python module is shallowly embedded below.  Ordered Python dictionaries
(`OrderedDict` plus JSON object-pairs loading) are represented as association
lists, so mapping order is preserved structurally.  Python exceptions are
represented by the explicit error type `PyError` through `Except`.
-/

namespace CatalystSpec

/-- Values stored in a config tree or on an argparse namespace: JSON/YAML
scalars, lists, and nested ordered mappings.  Python `float` values are
modelled as exact rationals produced from the decimal literal. -/
inductive CValue where
  | vnull
  | vbool (b : Bool)
  | vint (n : Int)
  | vfloat (q : Rat)
  | vstr (s : String)
  | vlist (xs : List CValue)
  | vdict (d : List (String × CValue))

/-- An order-preserving config tree: an `OrderedDict` from keys to values. -/
abbrev Config := List (String × CValue)

/-- An argparse `Namespace`: a record of named attributes. -/
structure Namespace where
  attrs : List (String × CValue)

/-- Python exceptions raised (or control transfers performed) by the module.
Each constructor records which concrete Python exception it stands for. -/
inductive PyError where
  /-- The `ValueError` raised by tuple unpacking when an override token does not
  split into exactly two pieces on `=`, or its value has no `:` — the
  realization of the spec's `MalformedOverrideError`. -/
  | malformedOverride
  /-- Control handed to Python `eval` with the recorded expression string.
  The embedding stops at the `eval` boundary: for type tags outside the
  handled scalar set (or literals beyond plain numerals), the source
  evaluates arbitrary code, which is modelled as this outcome. -/
  | evalDynamic (expr : String)
  /-- The `Exception("Unknown file format")` error — the spec's `UnsupportedFormatError`. -/
  | unknownFileFormat
  /-- A `TypeError` (e.g. indexing / membership test on a non-dict value). -/
  | typeError
  /-- A `KeyError` (indexing a dict at a missing key). -/
  | keyError
  /-- An `AttributeError` (missing attribute, or `.items()` on a non-dict). -/
  | attributeError
  /-- A `FileNotFoundError` from launching a missing subprocess binary. -/
  | fileNotFound
  /-- An `IOError`-class failure during dump (missing source file). -/
  | ioError
deriving DecidableEq

/-- First-match lookup in an association list (Python `d[k]` / `k in d`). -/
def lookupK {α : Type} : List (String × α) → String → Option α
  | [], _ => none
  | (k', v) :: rest, k => if k' = k then some v else lookupK rest k

/-- Ordered-dict assignment `d[k] = v`: replaces the first binding of `k`
in place, or appends a new binding at the end (OrderedDict semantics). -/
def setK {α : Type} : List (String × α) → String → α → List (String × α)
  | [], k, v => [(k, v)]
  | (k', v') :: rest, k, v =>
    if k' = k then (k', v) :: rest else (k', v') :: setK rest k v

/-! ### String helpers mirroring the Python string methods used

All separators in the source are single characters, so the helpers are
written by structural recursion on the character list (core `String`
routines work on byte positions and do not evaluate inside the kernel). -/

/-- Python `s.split(sep)` on the character list (no maxsplit). -/
def splitChars (sep : Char) : List Char → List (List Char)
  | [] => [[]]
  | c :: cs =>
    if c = sep then [] :: splitChars sep cs
    else
      match splitChars sep cs with
      | [] => [[c]]
      | g :: gs => (c :: g) :: gs

/-- Python `s.split(sep)` for a one-character separator. -/
def splitOnCh (sep : Char) (s : String) : List String :=
  (splitChars sep s.toList).map String.mk

/-- Python `sep.join(pieces)` for a one-character separator. -/
def joinChars (sep : Char) : List (List Char) → List Char
  | [] => []
  | [g] => g
  | g :: gs => g ++ sep :: joinChars sep gs

/-- List-prefix test by structural recursion. -/
def prefixChars : List Char → List Char → Bool
  | [], _ => true
  | _ :: _, [] => false
  | c :: cs, d :: ds => c = d && prefixChars cs ds

/-- Python `s.endswith(suffix)`. -/
def strEndsWith (s suffix : String) : Bool :=
  prefixChars suffix.toList.reverse s.toList.reverse

/-- Python `s.lower()` on the ASCII letters (the compared literal is
`"none"`). -/
def asciiLower (s : String) : String :=
  String.mk (s.toList.map (fun c =>
    if 'A' ≤ c ∧ c ≤ 'Z' then Char.ofNat (c.toNat + 32) else c))

/-- ASCII whitespace as stripped by Python `s.strip()`. -/
def isSpaceCh (c : Char) : Bool :=
  c = ' ' ∨ c = '\t' ∨ c = '\n' ∨ c = '\r'

/-- Python `s.strip()`: drop whitespace from both ends. -/
def pyStrip (s : String) : String :=
  String.mk
    (((s.toList.dropWhile isSpaceCh).reverse.dropWhile isSpaceCh).reverse)

/-- Python `s.lstrip("-")`: drop all leading dashes. -/
def lstripDashes (s : String) : String :=
  String.mk (s.toList.dropWhile (fun c => c = '-'))

/-- Python `s.strip("/")`: drop leading and trailing slashes. -/
def stripSlashes (s : String) : String :=
  String.mk
    (((s.toList.dropWhile (fun c => c = '/')).reverse.dropWhile
      (fun c => c = '/')).reverse)

/-- Python `s.rsplit(sep, 1)` for a one-character separator: split off the
last `sep`-separated piece.  Returns `none` when `sep` does not occur
(where the source's two-name unpacking would raise `ValueError`). -/
def rsplit1 (s : String) (sep : Char) : Option (String × String) :=
  match (splitChars sep s.toList).reverse with
  | [] => none
  | [_] => none
  | last :: restRev =>
    some (String.mk (joinChars sep restRev.reverse), String.mk last)

/-! ### The `eval`-based typed-literal conversion (config.py lines 163, 177) -/

/-- Outcome of the source's `eval("%s(%s)" % (value_type, value_content))`. -/
inductive EvalOut where
  /-- The evaluation is a plain scalar construction and yields this value. -/
  | val (v : CValue)
  /-- Control is handed to Python `eval` on this expression: an unrecognized
  type tag (or a literal beyond plain numerals) executes arbitrary code. -/
  | dynamic (expr : String)

/-- Value of a nonempty all-digit character run. -/
def digitsVal? (cs : List Char) : Option Nat :=
  if cs.isEmpty then none
  else if cs.all (fun c => c.isDigit) then
    some (cs.foldl (fun n c => n * 10 + (c.toNat - 48)) 0)
  else none

/-- Decimal digit run forming a valid Python integer-literal body
(no leading zero unless the literal is exactly `0`). -/
def decDigits? (cs : List Char) : Option Nat :=
  match cs with
  | [] => none
  | ['0'] => some 0
  | c :: _ => if c = '0' then none else digitsVal? cs

/-- Parse a plain Python integer literal (optional sign, decimal digits). -/
def parseIntLit (s : String) : Option Int :=
  match s.toList with
  | '-' :: rest => (decDigits? rest).map (fun n => -(n : Int))
  | cs => (decDigits? cs).map (fun n => (n : Int))

/-- Parse a plain Python float literal `digits.digits` (optional sign) as an
exact rational. -/
def parseFloatLit (s : String) : Option Rat :=
  let core : List Char → Option Rat := fun t =>
    match splitChars '.' t with
    | [a] => (decDigits? a).map (fun n => mkRat (n : Int) 1)
    | [a, b] =>
      match decDigits? a, digitsVal? b with
      | some ip, some fp =>
        some (mkRat (ip * 10 ^ b.length + fp : Int) (10 ^ b.length))
      | _, _ => none
    | _ => none
  match s.toList with
  | '-' :: rest => (core rest).map (fun q => -q)
  | cs => core cs

/-- The source's `eval("%s(%s)" % (value_type, value_content))`.  The scalar
constructors `int`, `float`, `bool` applied to plain literals are computed;
everything else is the arbitrary-code surface, marked `dynamic` with the
exact expression string the source would hand to `eval`. -/
def evalPy (ty content : String) : EvalOut :=
  let expr := ty ++ "(" ++ content ++ ")"
  if ty = "int" then
    match parseIntLit content with
    | some n => .val (.vint n)
    | none => .dynamic expr
  else if ty = "float" then
    match parseFloatLit content with
    | some q => .val (.vfloat q)
    | none => .dynamic expr
  else if ty = "bool" then
    if content = "True" then .val (.vbool true)
    else if content = "False" then .val (.vbool false)
    else .dynamic expr
  else .dynamic expr

/-! ### Recursive dict merge -/

mutual
/-- Modelled from the spec: `merge_dicts` lives in `catalyst/utils/misc.py`,
which is not part of the given source; only its caller `parse_args_uargs`
is.  Per spec section 4.2: for every key in the override tree, insert it if
absent in the base, merge recursively when both values are trees, and
overwrite with the override's value otherwise; keys present only in the
base are preserved unchanged. -/
def merge_dicts (a : Config) : Config → Config
  | [] => a
  | (k, w) :: rest =>
    merge_dicts (setK a k (match lookupK a k with
      | some v => mergeOne v w
      | none => w)) rest

/-- Modelled from the spec: merge of the two values at one shared key —
recurse when both are trees, otherwise the override value wins. -/
def mergeOne (v : CValue) : CValue → CValue
  | .vdict db =>
    match v with
    | .vdict da => .vdict (merge_dicts da db)
    | _ => .vdict db
  | w => w
end

/-! ### CLI override application (`parse_config_args`, lines 148-190) -/

/-- Split one raw CLI token into `(name, value_content, value_type)`:
`arg.split("=")` unpacked into two names, the name `lstrip("-").strip("/")`,
and `value.rsplit(":", 1)` unpacked into two names (lines 150-153).  A
failed two-name unpacking raises `ValueError` (`malformedOverride`). -/
def parseToken (arg : String) : Except PyError (String × String × String) :=
  match splitOnCh '=' arg with
  | [n, v] =>
    match rsplit1 v ':' with
    | some (content, ty) => .ok (stripSlashes (lstripDashes n), content, ty)
    | none => .error .malformedOverride
  | _ => .error .malformedOverride

/-- Descend the slash-separated path, creating `{}` for missing intermediate
keys, and assign the value at the final key (lines 165-172).  A non-dict
value met along the path makes the source's `in` test or item assignment
raise `TypeError`. -/
def setPath (c : Config) : List String → CValue → Except PyError Config
  | [], _ => .ok c
  | [k], v => .ok (setK c k v)
  | k :: k' :: rest, v => do
    let sub ← match lookupK c k with
      | none => Except.ok ([] : Config)
      | some (.vdict d) => Except.ok d
      | some _ => Except.error PyError.typeError
    let sub' ← setPath sub (k' :: rest) v
    .ok (setK c k (.vdict sub'))

/-- Convert the value content under its type tag for the config-tree branch
(lines 157-163): tag `str` yields the raw string except that the
case-insensitive literal `none` becomes null; other tags go through `eval`. -/
def convertSlashValue (content ty : String) : Except PyError CValue :=
  if ty = "str" then
    .ok (if asciiLower content = "none" then .vnull else .vstr content)
  else
    match evalPy ty content with
    | .val v => .ok v
    | .dynamic e => .error (.evalDynamic e)

/-- Convert the value content under its type tag for the named-argument
branch (lines 174-177): tag `str` yields the raw string (no `none`
recognition here); other tags go through `eval`. -/
def convertArgValue (content ty : String) : Except PyError CValue :=
  if ty = "str" then .ok (.vstr content)
  else
    match evalPy ty content with
    | .val v => .ok v
    | .dynamic e => .error (.evalDynamic e)

/-- Apply one override token (lines 149-178): slash-separated names target
the config tree, single-segment names set an attribute on `args`. -/
def applyToken (p : Config × Namespace) (arg : String) :
    Except PyError (Config × Namespace) := do
  let (name, content, ty) ← parseToken arg
  if name.toList.contains '/' then
    let v ← convertSlashValue content ty
    let c' ← setPath p.1 (splitOnCh '/' name) v
    .ok (c', p.2)
  else
    let v ← convertArgValue content ty
    .ok (p.1, ⟨setK p.2.attrs name v⟩)

/-- The override-application loop of `parse_config_args` (lines 149-178),
the spec's `apply_overrides`. -/
def apply_overrides (config : Config) (args : Namespace)
    (unknown_args : List String) : Except PyError (Config × Namespace) :=
  unknown_args.foldlM applyToken (config, args)

/-- Lexicographic comparison of character lists by code point, as Python
compares strings. -/
def ltChars : List Char → List Char → Bool
  | [], [] => false
  | [], _ :: _ => true
  | _ :: _, [] => false
  | c :: cs, d :: ds =>
    if c.toNat < d.toNat then true
    else if d.toNat < c.toNat then false
    else ltChars cs ds

/-- Python `a < b` on strings. -/
def strLt (a b : String) : Bool :=
  ltChars a.toList b.toList

/-- Stable ascending key sort: argparse `Namespace._get_kwargs` returns
`sorted(self.__dict__.items())`. -/
def insertByKey (p : String × CValue) :
    List (String × CValue) → List (String × CValue)
  | [] => [p]
  | q :: rest => if strLt p.1 q.1 then p :: q :: rest else q :: insertByKey p rest

/-- Python `args._get_kwargs()`: the attributes sorted by name (line 184). -/
def sortedKwargs (a : Namespace) : List (String × CValue) :=
  a.attrs.foldr insertByKey []

/-- The source's `config["args"][key] = value` (line 188): assignment into
a non-dict `config["args"]` raises `TypeError`; into a missing one,
`KeyError`. -/
def assignArg (c : Config) (k : String) (v : CValue) : Except PyError Config :=
  match lookupK c "args" with
  | some (.vdict d) => .ok (setK c "args" (.vdict (setK d k v)))
  | some _ => .error .typeError
  | none => .error .keyError

/-- Copy every non-`None` parsed argument into `config["args"]`
(lines 184-188), skipping `logdir`/`baselogdir` when they are the empty
string. -/
def copyArgsIntoConfig (config : Config) (args : Namespace) :
    Except PyError Config :=
  (sortedKwargs args).foldlM (fun c kv =>
    match kv.2 with
    | .vnull => .ok c
    | .vstr s =>
      if (kv.1 = "logdir" ∨ kv.1 = "baselogdir") ∧ s = "" then .ok c
      else assignArg c kv.1 (.vstr s)
    | v => assignArg c kv.1 v) config

/-- Embedding of `parse_config_args` (lines 148-190): apply the override
tokens, default `config["args"]` to `{}` when missing or `None`
(lines 180-182), then copy the parsed arguments in (lines 184-188). -/
def parse_config_args (config : Config) (args : Namespace)
    (unknown_args : List String) : Except PyError (Config × Namespace) := do
  let (c, a) ← apply_overrides config args unknown_args
  let c := match lookupK c "args" with
    | none => setK c "args" (.vdict [])
    | some .vnull => setK c "args" (.vdict [])
    | some _ => c
  let c ← copyArgsIntoConfig c a
  .ok (c, a)

/-! ### Config-file loading and `parse_args_uargs` (lines 193-232) -/

/-- A file-system oracle: the order-preserving parse of each config file's
bytes under the applicable parser (`json.load` with an ordered
object-pairs hook, or `load_ordered_yaml`).  Every path is assumed
readable and well-formed; `open`-failure is outside the claims. -/
abbrev ParsedFiles := String → Config

/-- The per-file dispatch of `parse_args_uargs` (lines 210-215): suffix
`json` goes to the ordered JSON loader, suffix `yml` to the ordered YAML
loader, anything else raises `Exception("Unknown file format")`. -/
def loadConfigFile (fs : ParsedFiles) (path : String) :
    Except PyError Config :=
  if strEndsWith path "json" then .ok (fs path)
  else if strEndsWith path "yml" then .ok (fs path)
  else .error .unknownFileFormat

/-- Python `args_.configs` followed by iterating it as file paths: a missing
attribute raises `AttributeError`; a non-list value or non-string element
raises `TypeError`. -/
def getConfigsList (a : Namespace) : Except PyError (List String) :=
  match lookupK a.attrs "configs" with
  | some (.vlist xs) =>
    xs.foldrM (fun x acc =>
      match x with
      | .vstr s => .ok (s :: acc)
      | _ => .error .typeError) []
  | some _ => .error .typeError
  | none => .error .attributeError

/-- The "hack with argparse in config" (lines 223-230): for each entry of
`config["args"]`, the CLI-scope attribute wins unless it is `None` — or the
empty string, for `logdir`/`baselogdir` only — in which case the
config-declared value is set on the arguments record. -/
def applyConfigArgsHack (config : Config) (a : Namespace) :
    Except PyError Namespace :=
  match lookupK config "args" with
  | none => .ok a
  | some .vnull => .ok a
  | some (.vdict d) =>
    .ok (d.foldl (fun a kv =>
      let argv := match lookupK a.attrs kv.1 with
        | none => kv.2
        | some .vnull => kv.2
        | some (.vstr s) =>
          if (kv.1 = "logdir" ∨ kv.1 = "baselogdir") ∧ s = "" then kv.2
          else .vstr s
        | some v => v
      ⟨setK a.attrs kv.1 argv⟩) a)
  | some _ => .error .attributeError

/-- Embedding of `parse_args_uargs` (lines 193-232): deep-copy the incoming
arguments (pure-value copy here), load and merge the config files listed on
`args.configs`, run `parse_config_args`, then merge `config["args"]` back
onto the arguments record. -/
def parse_args_uargs (fs : ParsedFiles) (args : Namespace)
    (unknown_args : List String) : Except PyError (Namespace × Config) := do
  let args_ := args
  let paths ← getConfigsList args_
  let config ← paths.foldlM (fun cfg p => do
    let c ← loadConfigFile fs p
    Except.ok (merge_dicts cfg c)) ([] : Config)
  let (config, args_) ← parse_config_args config args_ unknown_args
  let args_ ← applyConfigArgsHack config args_
  .ok (args_, config)

/-! ### Environment capture (`get_environment_vars`, lines 63-106) -/

/-- Broken-down time for `time.strftime`. -/
structure Tm where
  year : Nat
  month : Nat
  day : Nat
  hour : Nat
  minute : Nat
  sec : Nat

/-- Zero-padded two-digit field, as `strftime` renders each component. -/
def pad2 (n : Nat) : String :=
  if n < 10 then "0" ++ toString n else toString n

/-- Python `time.strftime("%y%m%d.%H:%M:%S")`. -/
def strftimeYmd (t : Tm) : String :=
  pad2 (t.year % 100) ++ pad2 t.month ++ pad2 t.day ++ "." ++
  pad2 t.hour ++ ":" ++ pad2 t.minute ++ ":" ++ pad2 t.sec

/-- Outcome of one `subprocess.check_output` invocation. -/
inductive ProcResult where
  /-- The command ran and printed this output (decoded). -/
  | out (s : String)
  /-- The command exited non-zero: `CalledProcessError` is raised. -/
  | exitNonzero
  /-- The binary could not be launched: `FileNotFoundError` is raised. -/
  | noBinary
deriving DecidableEq

/-- The ambient OS state read by `get_environment_vars`. -/
structure OSEnv where
  pythonVersion : String
  environ : String → Option String
  pipVersion : String
  time : Tm
  uname0 : String
  uname1 : String
  uname2 : String
  uname3 : String
  uname4 : String
  gitBranchCall : ProcResult
  gitLocalCommitCall : ProcResult
  gitOriginCommitCall : String → ProcResult

/-- Python `os.environ.get(k, "")`. -/
def envGet (env : OSEnv) (k : String) : String :=
  (env.environ k).getD ""

/-- The fixed base fields of the environment snapshot (lines 70-82). -/
def envBase (env : OSEnv) : List (String × CValue) := [
  ("python_version", .vstr env.pythonVersion),
  ("conda_environment", .vstr (envGet env "CONDA_DEFAULT_ENV")),
  ("pip", .vstr env.pipVersion),
  ("creation_time", .vstr (strftimeYmd env.time)),
  ("sysname", .vstr env.uname0),
  ("nodename", .vstr env.uname1),
  ("release", .vstr env.uname2),
  ("version", .vstr env.uname3),
  ("architecture", .vstr env.uname4),
  ("user", .vstr (envGet env "USER")),
  ("path", .vstr (envGet env "PWD"))]

/-- Embedding of `get_environment_vars` (lines 63-106): the fixed base
fields, then a best-effort `git` entry.  Only `CalledProcessError`
(`exitNonzero`) is caught by the `try`/`except` (line 102); a missing git
binary raises `FileNotFoundError`, which propagates.  The branch output is
stripped (line 88); byte decoding is the identity on the modelled strings. -/
def get_environment_vars (env : OSEnv) :
    Except PyError (List (String × CValue)) :=
  let base := envBase env
  match env.gitBranchCall with
  | .noBinary => .error .fileNotFound
  | .exitNonzero => .ok base
  | .out branchRaw =>
    let branch := pyStrip branchRaw
    match env.gitLocalCommitCall with
    | .noBinary => .error .fileNotFound
    | .exitNonzero => .ok base
    | .out lc =>
      match env.gitOriginCommitCall branch with
      | .noBinary => .error .fileNotFound
      | .exitNonzero => .ok base
      | .out oc =>
        .ok (base ++ [("git", .vdict [
          ("branch", .vstr branch),
          ("local_commit", .vstr lc),
          ("origin_commit", .vstr oc)])])

/-! ### Config persistence (`dump_config`, lines 109-145) -/

/-- The file system touched by `dump_config`: the set of directories, the
serialized JSON documents by path (a written document is stored as its
parsed value, abstracting the serialize/deserialize round trip), and the
`SummaryWriter` text-summary sink of `(tag, document, step)` records. -/
structure FS where
  dirs : List String
  files : List (String × CValue)
  sink : List (String × CValue × Nat)

/-- Python `Path.mkdir(exist_ok=True, parents=True)`: a pre-existing
directory is not an error. -/
def mkdirP (fs : FS) (d : String) : FS :=
  if fs.dirs.contains d then fs else { fs with dirs := d :: fs.dirs }

/-- Write (or overwrite) a serialized document at a path
(`safitty.save` / `shutil.copyfile` target). -/
def writeFileFS (fs : FS) (p : String) (v : CValue) : FS :=
  { fs with files := setK fs.files p v }

/-- Python `Path(path).name`: the final path component. -/
def basename (p : String) : String :=
  (splitOnCh '/' p).getLastD p

/-- Embedding of `dump_config` (lines 109-145): create `logdir/configs/`,
capture the environment, write `_config.json` and `_environment.json`, copy
each source config file under its basename (collisions overwrite; a missing
source raises an `IOError`-class error), and append both documents to the
text-summary sink at step 0.  `configs_path` is already a list of path
strings, matching the source's `isinstance(path, str)` filter. -/
def dump_config (env : OSEnv) (experiment_config : Config) (logdir : String)
    (configs_path : List String) (fs : FS) : Except PyError FS := do
  let configDir := logdir ++ "/configs"
  let fs := mkdirP fs configDir
  let environment ← get_environment_vars env
  let fs := writeFileFS fs (configDir ++ "/_config.json")
    (.vdict experiment_config)
  let fs := writeFileFS fs (configDir ++ "/_environment.json")
    (.vdict environment)
  let fs ← configs_path.foldlM (fun fs p =>
    match lookupK fs.files p with
    | some v => Except.ok (writeFileFS fs (configDir ++ "/" ++ basename p) v)
    | none => Except.error PyError.ioError) fs
  .ok { fs with sink := fs.sink ++
    [("config", .vdict experiment_config, 0),
     ("environment", .vdict environment, 0)] }

/-! ### Object-identity model for the frame property of `parse_args_uargs` -/

/-- A heap of argparse namespace objects, addressed by reference index.
This instruments object identity: `copy.deepcopy` (line 204) allocates a
fresh object, and every later `setattr` in `parse_config_args` and the
args-merge loop targets that fresh object only. -/
structure Store where
  objs : List Namespace

/-- Read the object at a reference. -/
def readRef : List Namespace → Nat → Option Namespace
  | [], _ => none
  | x :: _, 0 => some x
  | _ :: xs, n + 1 => readRef xs n

/-- Overwrite the object at a reference. -/
def writeRef : List Namespace → Nat → Namespace → List Namespace
  | [], _, _ => []
  | _ :: xs, 0, a => a :: xs
  | x :: xs, n + 1, a => x :: writeRef xs n a

/-- Embedding of `parse_args_uargs` over the object store: deep-copy the
caller's namespace into a fresh reference, run the pure pipeline on the
copy, and store the mutated copy back at the fresh reference.  On an
exception the partially-mutated copy also lives only at the fresh
reference, so the store is returned with the copy untouched. -/
def parse_args_uargs_st (fs : ParsedFiles) (s : Store) (r : Nat)
    (unknown_args : List String) : Store × Except PyError (Nat × Config) :=
  let copied := (readRef s.objs r).getD ⟨[]⟩
  let r1 := s.objs.length
  let s1 : Store := ⟨s.objs ++ [copied]⟩
  match parse_args_uargs fs copied unknown_args with
  | .ok (a2, c) => (⟨writeRef s1.objs r1 a2⟩, .ok (r1, c))
  | .error e => (s1, .error e)

/-! ## Auxiliary lemmas -/

theorem lookupK_setK_self {α : Type} (l : List (String × α)) (k : String)
    (v : α) : lookupK (setK l k v) k = some v := by
  induction l with
  | nil => simp [setK, lookupK]
  | cons p rest ih =>
    by_cases h : p.1 = k
    · simp [setK, lookupK, h]
    · simp [setK, lookupK, h, ih]

theorem lookupK_setK_ne {α : Type} (l : List (String × α)) (k k' : String)
    (v : α) (h : k ≠ k') : lookupK (setK l k v) k' = lookupK l k' := by
  induction l with
  | nil => simp [setK, lookupK, h]
  | cons p rest ih =>
    by_cases hp : p.1 = k
    · simp [setK, lookupK, hp, h]
    · simp [setK, lookupK, hp, ih]

theorem lookupK_eq_none_of_not_mem {α : Type} (l : List (String × α))
    (k : String) (h : k ∉ l.map Prod.fst) : lookupK l k = none := by
  induction l with
  | nil => rfl
  | cons p rest ih =>
    simp only [List.map_cons, List.mem_cons] at h
    push_neg at h
    have h1 : ¬ p.1 = k := fun he => h.1 he.symm
    simp [lookupK, h1, ih h.2]

/-- Keys of an ordered mapping are pairwise distinct (dict invariant). -/
abbrev keysNodup {α : Type} (l : List (String × α)) : Prop :=
  (l.map Prod.fst).Nodup

/-- Both values at a shared key are trees, so `merge_dicts` recurses. -/
def isTreePair : CValue → CValue → Bool
  | .vdict _, .vdict _ => true
  | _, _ => false

theorem mergeOne_of_not_treePair (v w : CValue) (h : isTreePair v w = false) :
    mergeOne v w = w := by
  cases v <;> cases w <;> first
    | rfl
    | exact absurd h (by simp [isTreePair])

/-- Master evaluation lemma for the merge: the value of the merged tree at
any key, as a function of the two operands' values there, assuming the
override tree has no duplicate keys. -/
theorem lookupK_merge_dicts (B : Config) (A : Config) (k : String)
    (hB : keysNodup B) :
    lookupK (merge_dicts A B) k =
      match lookupK B k with
      | none => lookupK A k
      | some w =>
        some (match lookupK A k with
          | some v => mergeOne v w
          | none => w) := by
  induction B generalizing A with
  | nil => simp [merge_dicts, lookupK]
  | cons p rest ih =>
    obtain ⟨k0, w0⟩ := p
    have hnd : keysNodup rest := (List.nodup_cons.mp hB).2
    have hmem : k0 ∉ rest.map Prod.fst := (List.nodup_cons.mp hB).1
    by_cases hk : k0 = k
    · subst hk
      have hrest : lookupK rest k0 = none :=
        lookupK_eq_none_of_not_mem rest k0 hmem
      rw [show merge_dicts A ((k0, w0) :: rest)
            = merge_dicts (setK A k0 (match lookupK A k0 with
                | some v => mergeOne v w0
                | none => w0)) rest from rfl]
      rw [ih _ hnd, hrest, lookupK_setK_self]
      simp [lookupK]
    · rw [show merge_dicts A ((k0, w0) :: rest)
            = merge_dicts (setK A k0 (match lookupK A k0 with
                | some v => mergeOne v w0
                | none => w0)) rest from rfl]
      rw [ih _ hnd, lookupK_setK_ne _ _ _ _ hk]
      simp [lookupK, hk]

theorem readRef_append_left (l l' : List Namespace) (r : Nat)
    (h : r < l.length) : readRef (l ++ l') r = readRef l r := by
  induction l generalizing r with
  | nil => exact absurd h (by simp)
  | cons x xs ih =>
    cases r with
    | zero => rfl
    | succ n => exact ih n (by simpa using h)

theorem readRef_writeRef_ne (l : List Namespace) (r r' : Nat) (a : Namespace)
    (h : r' ≠ r) : readRef (writeRef l r' a) r = readRef l r := by
  induction l generalizing r r' with
  | nil => rfl
  | cons x xs ih =>
    cases r' with
    | zero =>
      cases r with
      | zero => exact absurd rfl h
      | succ n => rfl
    | succ m =>
      cases r with
      | zero => rfl
      | succ n => exact ih n m (fun he => h (by rw [he]))

/-- Lemma for tokens without a colon in the value: Python `rsplit(":", 1)`
yields a single piece, so the two-name unpacking raises `ValueError`. -/
theorem rsplit1_eq_none_of_no_colon (v : String) (h : ':' ∉ v.toList) :
    rsplit1 v ':' = none := by
  have hs : ∀ l : List Char, ':' ∉ l → splitChars ':' l = [l] := by
    intro l
    induction l with
    | nil => intro _; rfl
    | cons c cs ih =>
      intro hm
      simp only [List.mem_cons, not_or] at hm
      have hc : ¬ c = ':' := fun he => hm.1 he.symm
      rw [show splitChars ':' (c :: cs)
            = if c = ':' then [] :: splitChars ':' cs
              else (match splitChars ':' cs with
                | [] => [[c]]
                | g :: gs => (c :: g) :: gs) from rfl,
          if_neg hc, ih hm.2]
  rw [rsplit1, hs v.toList h]
  rfl

/-! ## Claims -/

/-- C1.  The claim states that an override token with an unrecognized type
tag (such as `"--x=1:weird"`) raises `MalformedOverrideError` and executes
no code.  The source instead interpolates the tag into
`eval("%s(%s)" % (value_type, value_content))` (line 177): control passes
to `eval` on the string `weird(1)` — the arbitrary-code parsing fallback —
and no `MalformedOverrideError` is raised. -/
theorem c1_unknown_tag_reaches_eval :
    parse_config_args [] ⟨[]⟩ ["--x=1:weird"]
      = .error (.evalDynamic "weird(1)") := rfl

/-- C2 counterexample.  The claim states `"--tag=none:str"` yields
`{"tag": None}`.  On the code, `tag` is a single-segment name, so the token
takes the named-argument branch (lines 174-178), which has no
`none`-to-`None` recognition: the string `"none"` is bound, both on the
arguments record and under `config["args"]` — never the null value. -/
theorem c2_counterexample :
    parse_config_args [] ⟨[]⟩ ["--tag=none:str"]
      = .ok ([("args", .vdict [("tag", .vstr "none")])],
             ⟨[("tag", .vstr "none")]⟩)
    ∧ ¬ ∃ c a, parse_config_args [] ⟨[]⟩ ["--tag=none:str"] = .ok (c, a)
        ∧ lookupK a.attrs "tag" = some .vnull := by
  refine ⟨rfl, ?_⟩
  rintro ⟨c, a, h, hl⟩
  rw [show parse_config_args [] ⟨[]⟩ ["--tag=none:str"]
        = .ok (([("args", CValue.vdict [("tag", CValue.vstr "none")])],
                (⟨[("tag", CValue.vstr "none")]⟩ : Namespace))) from rfl] at h
  cases h
  simp [lookupK] at hl

/-- C2 amended.  The case-insensitive `none`-to-null recognition applies
only to slash-separated config-tree overrides (lines 157-161): the
single-segment token `"--tag=none:str"` binds the string `"none"` to `tag`
on the parsed-arguments record (and under `config["args"]`), while the
config-path token `"--model/tag=none:str"` does store the null value. -/
theorem c2_amended_none_literal :
    parse_config_args [] ⟨[]⟩ ["--tag=none:str"]
      = .ok ([("args", .vdict [("tag", .vstr "none")])],
             ⟨[("tag", .vstr "none")]⟩)
    ∧ apply_overrides [] ⟨[]⟩ ["--model/tag=none:str"]
      = .ok ([("model", .vdict [("tag", .vnull)])], ⟨[]⟩) :=
  ⟨rfl, rfl⟩

/-- C7.  The token `"--model/lr=0.01:float"` applied to the empty config
yields `{"model": {"lr": 0.01}}` with the value a float (the `vfloat`
constructor carrying the rational 1/100), not a string; a slash path
navigates an existing nested tree, and creates absent intermediate trees. -/
theorem c7_float_override :
    apply_overrides [] ⟨[]⟩ ["--model/lr=0.01:float"]
      = .ok ([("model", .vdict [("lr", .vfloat (mkRat 1 100))])], ⟨[]⟩)
    ∧ apply_overrides [("model", .vdict [("x", .vint 1)])] ⟨[]⟩
        ["--model/lr=0.01:float"]
      = .ok ([("model", .vdict [("x", .vint 1),
              ("lr", .vfloat (mkRat 1 100))])], ⟨[]⟩)
    ∧ apply_overrides [] ⟨[]⟩ ["--a/b/c=2:int"]
      = .ok ([("a", .vdict [("b", .vdict [("c", .vint 2)])])], ⟨[]⟩)
    ∧ (CValue.vfloat (mkRat 1 100) ≠ CValue.vstr "0.01") :=
  ⟨rfl, rfl, rfl, fun h => CValue.noConfusion h⟩

theorem except_bind_error {α β : Type} (e : PyError)
    (f : α → Except PyError β) :
    (Except.error e : Except PyError α) >>= f = .error e := rfl

theorem except_bind_ok {α β : Type} (x : α) (f : α → Except PyError β) :
    (Except.ok x : Except PyError α) >>= f = f x := rfl

/-- C8.  Any override token of shape `name=value` whose value part contains
no `:` (so it lacks a `:type` suffix, like `"--x=1"`) makes
`parse_config_args` fail with the malformed-override error — the
`ValueError` from the two-name unpacking at line 153 — and no config is
produced, regardless of the enclosing config, arguments, or later tokens. -/
theorem c8_missing_type_tag (cfg : Config) (a : Namespace) (n v : String)
    (rest : List String)
    (h1 : splitOnCh '=' (n ++ "=" ++ v) = [n, v])
    (h2 : ':' ∉ v.toList) :
    parse_config_args cfg a ((n ++ "=" ++ v) :: rest)
      = .error .malformedOverride := by
  have hp : parseToken (n ++ "=" ++ v) = .error .malformedOverride := by
    rw [parseToken, h1]
    show (match rsplit1 v ':' with
      | some (content, ty) =>
        Except.ok (stripSlashes (lstripDashes n), content, ty)
      | none => Except.error PyError.malformedOverride)
        = Except.error PyError.malformedOverride
    rw [rsplit1_eq_none_of_no_colon v h2]
  have ht : applyToken (cfg, a) (n ++ "=" ++ v)
      = .error .malformedOverride := by
    rw [applyToken, hp, except_bind_error]
  rw [parse_config_args, apply_overrides, List.foldlM_cons, ht,
    except_bind_error, except_bind_error]

/-- C8 witness: the concrete malformed token `"--x=1"` on the empty config
and empty arguments. -/
theorem c8_missing_type_tag_witness :
    parse_config_args [] ⟨[]⟩ ["--x=1"] = .error .malformedOverride :=
  c8_missing_type_tag [] ⟨[]⟩ "--x" "1" [] (by decide) (by decide)

/-- Config-file oracle for the C5 scenario: the single config file declares
`{"args": {"logdir": "/from/config"}}`. -/
def fsLogdirC5 : ParsedFiles := fun _ =>
  [("args", .vdict [("logdir", .vstr "/from/config")])]

/-- Config-file oracle for the C5 contrast: the config declares
`{"args": {"tag": "/from/config"}}`. -/
def fsTagC5 : ParsedFiles := fun _ =>
  [("args", .vdict [("tag", .vstr "/from/config")])]

/-- C5.  An empty-string CLI-parsed `logdir` counts as unset: with a config
declaring `args.logdir = "/from/config"` and CLI-parsed `logdir == ""`,
`parse_args_uargs` returns the arguments record with
`logdir == "/from/config"` (lines 186-187 and 227-229).  The contrast
conjunct shows the exception is specific to the log-directory fields: for
the ordinary field `tag` an empty-string CLI value is kept, overriding the
config-declared value. -/
theorem c5_logdir_empty_counts_as_unset :
    (∃ c, parse_args_uargs fsLogdirC5
        ⟨[("configs", .vlist [.vstr "c.yml"]), ("logdir", .vstr "")]⟩ []
      = .ok (⟨[("configs", .vlist [.vstr "c.yml"]),
               ("logdir", .vstr "/from/config")]⟩, c))
    ∧ (∃ c, parse_args_uargs fsTagC5
        ⟨[("configs", .vlist [.vstr "c.yml"]), ("tag", .vstr "")]⟩ []
      = .ok (⟨[("configs", .vlist [.vstr "c.yml"]),
               ("tag", .vstr "")]⟩, c)) :=
  ⟨⟨_, rfl⟩, ⟨_, rfl⟩⟩

/-- C3 counterexample.  The claim lists `.yaml` among the recognized
extensions, but the source tests `config_path.endswith("yml")`
(line 212), which `"config.yaml"` fails: the loader raises
`Exception("Unknown file format")` for it, both at the per-file dispatch
and through the whole of `parse_args_uargs`. -/
theorem c3_counterexample :
    loadConfigFile (fun _ => []) "config.yaml" = .error .unknownFileFormat
    ∧ parse_args_uargs (fun _ => [])
        ⟨[("configs", .vlist [.vstr "config.yaml"])]⟩ []
      = .error .unknownFileFormat :=
  ⟨rfl, rfl⟩

/-- C3 amended.  The recognized formats are the paths ending in the
character runs `json` or `yml` (so `.yml` and `.json` load, and `.yaml`
does not): such a path loads to the oracle's order-preserving parse of the
file, and any other path makes `parse_args_uargs` fail with the
unknown-file-format error before any config is produced. -/
theorem c3_extension_dispatch (fs : ParsedFiles) (path : String)
    (u : List String) :
    (strEndsWith path "json" = true ∨ strEndsWith path "yml" = true →
      loadConfigFile fs path = .ok (fs path))
    ∧ (strEndsWith path "json" = false → strEndsWith path "yml" = false →
      parse_args_uargs fs ⟨[("configs", .vlist [.vstr path])]⟩ u
        = .error .unknownFileFormat) := by
  constructor
  · intro h
    rcases h with h | h
    · rw [loadConfigFile, if_pos h]
    · rw [loadConfigFile]
      cases hj : strEndsWith path "json" <;> simp [h]
  · intro hj hy
    have hl : loadConfigFile fs path = .error .unknownFileFormat := by
      rw [loadConfigFile, if_neg (by simp [hj]), if_neg (by simp [hy])]
    rw [parse_args_uargs,
      show getConfigsList ⟨[("configs", CValue.vlist [CValue.vstr path])]⟩
        = Except.ok [path] from rfl,
      except_bind_ok, List.foldlM_cons, hl, except_bind_error,
      except_bind_error, except_bind_error]

/-- C3 witness: the amended dispatch at the concrete paths `"c.yml"`
(loads) and `"c.txt"` (rejected). -/
theorem c3_extension_dispatch_witness :
    loadConfigFile (fun _ => [("k", .vint 7)]) "c.yml" = .ok [("k", .vint 7)]
    ∧ parse_args_uargs (fun _ => [])
        ⟨[("configs", .vlist [.vstr "c.txt"])]⟩ []
      = .error .unknownFileFormat :=
  ⟨(c3_extension_dispatch (fun _ => [("k", .vint 7)]) "c.yml" []).1
      (Or.inr (by decide)),
   (c3_extension_dispatch (fun _ => []) "c.txt" []).2 (by decide) (by decide)⟩

/-- C6.  The merge is right-biased and recursive: a key only in the
override tree takes the override's value; a key only in the base keeps the
base's value; a key in both whose values are both trees merges recursively;
any other key in both takes the override's value outright (so lists are
replaced, not concatenated).  The override tree carries the dict invariant
of pairwise-distinct keys. -/
theorem c6_merge_right_biased (A B : Config) (hB : keysNodup B) :
    (∀ k v, lookupK A k = none → lookupK B k = some v →
      lookupK (merge_dicts A B) k = some v)
    ∧ (∀ k, lookupK B k = none →
      lookupK (merge_dicts A B) k = lookupK A k)
    ∧ (∀ k da db, lookupK A k = some (.vdict da) →
      lookupK B k = some (.vdict db) →
      lookupK (merge_dicts A B) k = some (.vdict (merge_dicts da db)))
    ∧ (∀ k v w, lookupK A k = some v → lookupK B k = some w →
      isTreePair v w = false → lookupK (merge_dicts A B) k = some w) := by
  refine ⟨?_, ?_, ?_, ?_⟩
  · intro k v hA hBk
    rw [lookupK_merge_dicts B A k hB, hBk, hA]
  · intro k hBk
    rw [lookupK_merge_dicts B A k hB, hBk]
  · intro k da db hA hBk
    rw [lookupK_merge_dicts B A k hB, hBk, hA]
    rfl
  · intro k v w hA hBk hnp
    rw [lookupK_merge_dicts B A k hB, hBk, hA]
    show some (mergeOne v w) = some w
    rw [mergeOne_of_not_treePair v w hnp]

/-- Base tree for the C6 witness. -/
def aC6 : Config :=
  [("x", .vint 1), ("d", .vdict [("p", .vint 1)]), ("l", .vlist [.vint 1])]

/-- Override tree for the C6 witness. -/
def bC6 : Config :=
  [("y", .vint 2), ("d", .vdict [("q", .vint 2)]), ("l", .vlist [.vint 2])]

/-- C6 witness: the four merge clauses at concrete trees — a key only in
the override, a key only in the base, a shared key with nested trees, and a
shared key holding lists (replaced outright). -/
theorem c6_merge_right_biased_witness :
    lookupK (merge_dicts aC6 bC6) "y" = some (.vint 2)
    ∧ lookupK (merge_dicts aC6 bC6) "x" = lookupK aC6 "x"
    ∧ lookupK (merge_dicts aC6 bC6) "d"
        = some (.vdict (merge_dicts [("p", .vint 1)] [("q", .vint 2)]))
    ∧ lookupK (merge_dicts aC6 bC6) "l" = some (.vlist [.vint 2]) :=
  ⟨(c6_merge_right_biased aC6 bC6 (by decide)).1 "y" (.vint 2) rfl rfl,
   (c6_merge_right_biased aC6 bC6 (by decide)).2.1 "x" rfl,
   (c6_merge_right_biased aC6 bC6 (by decide)).2.2.1 "d"
     [("p", .vint 1)] [("q", .vint 2)] rfl rfl,
   (c6_merge_right_biased aC6 bC6 (by decide)).2.2.2 "l"
     (.vlist [.vint 1]) (.vlist [.vint 2]) rfl rfl rfl⟩

/-- An OS state in which the git binary cannot be launched: every
subprocess call fails with `FileNotFoundError`. -/
def envNoGitBinary : OSEnv :=
  ⟨"3.6.9", fun _ => none, "19.0.3", ⟨19, 5, 1, 2, 3, 4⟩,
   "Linux", "host", "4.15.0", "#1 SMP", "x86_64",
   .noBinary, .noBinary, fun _ => .noBinary⟩

/-- C4 counterexample.  The claim states the capture always succeeds, also
when the git binary is unavailable.  The `try`/`except` at lines 85-103
catches only `subprocess.CalledProcessError`; when the binary cannot be
launched, `check_output` raises `FileNotFoundError`, which escapes the
handler and the capture as a whole fails. -/
theorem c4_counterexample :
    get_environment_vars envNoGitBinary = .error .fileNotFound := rfl

/-- C4 amended.  The capture succeeds whenever the git binary can be
launched: when any of the three git commands exits non-zero (e.g. the
process is not inside a checkout), the caught `CalledProcessError` makes
the `git` field be omitted entirely (`lookupK r "git" = none`, no empty or
error sentinel); when all three produce output, the `git` sub-record is
present.  A missing git binary, however, is not recoverable (see the
counterexample). -/
theorem c4_capture_best_effort (env : OSEnv)
    (h1 : env.gitBranchCall ≠ ProcResult.noBinary)
    (h2 : env.gitLocalCommitCall ≠ ProcResult.noBinary)
    (h3 : ∀ b, env.gitOriginCommitCall b ≠ ProcResult.noBinary) :
    ∃ r, get_environment_vars env = .ok r
      ∧ lookupK r "creation_time" = some (.vstr (strftimeYmd env.time))
      ∧ (env.gitBranchCall = .exitNonzero → lookupK r "git" = none)
      ∧ (env.gitLocalCommitCall = .exitNonzero → lookupK r "git" = none)
      ∧ (∀ b l, env.gitBranchCall = .out b →
          env.gitLocalCommitCall = .out l →
          env.gitOriginCommitCall (pyStrip b) = .exitNonzero →
          lookupK r "git" = none)
      ∧ (∀ b l o, env.gitBranchCall = .out b →
          env.gitLocalCommitCall = .out l →
          env.gitOriginCommitCall (pyStrip b) = .out o →
          lookupK r "git" = some (.vdict [("branch", .vstr (pyStrip b)),
            ("local_commit", .vstr l), ("origin_commit", .vstr o)])) := by
  cases hb : env.gitBranchCall with
  | noBinary => exact absurd hb h1
  | exitNonzero =>
    have hok : get_environment_vars env = .ok (envBase env) := by
      simp [get_environment_vars, hb]
    exact ⟨_, hok, rfl, fun _ => rfl, fun _ => rfl, fun _ _ _ _ _ => rfl,
      fun b l o hbe _ _ => ProcResult.noConfusion hbe⟩
  | out b0 =>
    cases hl : env.gitLocalCommitCall with
    | noBinary => exact absurd hl h2
    | exitNonzero =>
      have hok : get_environment_vars env = .ok (envBase env) := by
        simp [get_environment_vars, hb, hl]
      exact ⟨_, hok, rfl, fun _ => rfl, fun _ => rfl, fun _ _ _ _ _ => rfl,
        fun b l o _ hle _ => ProcResult.noConfusion hle⟩
    | out l0 =>
      cases ho : env.gitOriginCommitCall (pyStrip b0) with
      | noBinary => exact absurd ho (h3 _)
      | exitNonzero =>
        have hok : get_environment_vars env = .ok (envBase env) := by
          simp [get_environment_vars, hb, hl, ho]
        refine ⟨_, hok, rfl, fun _ => rfl, fun _ => rfl,
          fun _ _ _ _ _ => rfl, ?_⟩
        intro b l o hbe hle hoe
        cases hbe
        cases hle
        rw [ho] at hoe
        exact ProcResult.noConfusion hoe
      | out o0 =>
        have hok : get_environment_vars env
            = .ok (envBase env ++ [("git", .vdict [
              ("branch", .vstr (pyStrip b0)),
              ("local_commit", .vstr l0),
              ("origin_commit", .vstr o0)])]) := by
          simp [get_environment_vars, hb, hl, ho]
        refine ⟨_, hok, rfl,
          fun hbe => ProcResult.noConfusion hbe,
          fun hle => ProcResult.noConfusion hle, ?_, ?_⟩
        · intro b l hbe hle hoe
          cases hbe
          cases hle
          rw [ho] at hoe
          exact ProcResult.noConfusion hoe
        · intro b l o hbe hle hoe
          cases hbe
          cases hle
          rw [ho] at hoe
          cases hoe
          rfl

/-- An OS state inside no checkout: every git command exits non-zero. -/
def envGitFails : OSEnv :=
  ⟨"3.6.9", fun _ => none, "19.0.3", ⟨19, 5, 1, 2, 3, 4⟩,
   "Linux", "host", "4.15.0", "#1 SMP", "x86_64",
   .exitNonzero, .exitNonzero, fun _ => .exitNonzero⟩

/-- C4 witness: on the concrete environment where every git command exits
non-zero, the capture succeeds, the `git` field is absent, and
`creation_time` is present. -/
theorem c4_capture_best_effort_witness :
    ∃ r, get_environment_vars envGitFails = .ok r
      ∧ lookupK r "git" = none
      ∧ lookupK r "creation_time"
          = some (.vstr (strftimeYmd envGitFails.time)) :=
  (c4_capture_best_effort envGitFails (by decide) (by decide)
      (fun _ h => ProcResult.noConfusion h)).elim
    (fun r hr => ⟨r, hr.1, hr.2.2.1 rfl, hr.2.1⟩)

theorem strftimeYmd_ne_empty (t : Tm) : strftimeYmd t ≠ "" := by
  intro h
  have hlen := congrArg String.length h
  rw [strftimeYmd] at hlen
  simp only [String.length_append] at hlen
  rw [show String.length "." = 1 from rfl,
    show String.length "" = 0 from rfl] at hlen
  omega

theorem mkdirP_contains (fs : FS) (d : String) :
    (mkdirP fs d).dirs.contains d = true := by
  rw [mkdirP]
  split
  · assumption
  · simp [List.contains_cons]

/-- C9.  Dumping the config `{"a": 1}` into target directory `D` with no
source files succeeds on any prior file-system state (a pre-existing
`D/configs/` directory included): afterwards `D/configs/` is present,
`D/configs/_config.json` deserializes to `{"a": 1}`, and
`D/configs/_environment.json` holds the environment snapshot, whose
`creation_time` field is a non-empty string.  The environment hypotheses
say the git binary can be launched, since `get_environment_vars` runs
inside `dump_config` (line 129) and a missing binary would propagate. -/
theorem c9_dump_config_scenario (fs : FS) (env : OSEnv)
    (h1 : env.gitBranchCall ≠ ProcResult.noBinary)
    (h2 : env.gitLocalCommitCall ≠ ProcResult.noBinary)
    (h3 : ∀ b, env.gitOriginCommitCall b ≠ ProcResult.noBinary) :
    ∃ fs' e, dump_config env [("a", .vint 1)] "D" [] fs = .ok fs'
      ∧ fs'.dirs.contains "D/configs" = true
      ∧ lookupK fs'.files "D/configs/_config.json"
          = some (.vdict [("a", .vint 1)])
      ∧ get_environment_vars env = .ok e
      ∧ lookupK fs'.files "D/configs/_environment.json" = some (.vdict e)
      ∧ ∃ s, lookupK e "creation_time" = some (.vstr s) ∧ s ≠ "" := by
  have henv : ∃ e, get_environment_vars env = .ok e
      ∧ lookupK e "creation_time"
        = some (.vstr (strftimeYmd env.time)) := by
    cases hb : env.gitBranchCall with
    | noBinary => exact absurd hb h1
    | exitNonzero =>
      exact ⟨envBase env, by simp [get_environment_vars, hb], rfl⟩
    | out b0 =>
      cases hl : env.gitLocalCommitCall with
      | noBinary => exact absurd hl h2
      | exitNonzero =>
        exact ⟨envBase env, by simp [get_environment_vars, hb, hl], rfl⟩
      | out l0 =>
        cases ho : env.gitOriginCommitCall (pyStrip b0) with
        | noBinary => exact absurd ho (h3 _)
        | exitNonzero =>
          exact ⟨envBase env, by simp [get_environment_vars, hb, hl, ho],
            rfl⟩
        | out o0 =>
          refine ⟨envBase env ++ [("git", .vdict [
              ("branch", .vstr (pyStrip b0)),
              ("local_commit", .vstr l0),
              ("origin_commit", .vstr o0)])],
            by simp [get_environment_vars, hb, hl, ho], ?_⟩
          rfl
  obtain ⟨e, he, hc⟩ := henv
  have hdump : dump_config env [("a", .vint 1)] "D" [] fs
      = .ok ⟨(mkdirP fs "D/configs").dirs,
        setK (setK (mkdirP fs "D/configs").files "D/configs/_config.json"
            (.vdict [("a", .vint 1)]))
          "D/configs/_environment.json" (.vdict e),
        (mkdirP fs "D/configs").sink ++
          [("config", .vdict [("a", .vint 1)], 0),
           ("environment", .vdict e, 0)]⟩ := by
    rw [dump_config, he, except_bind_ok]
    rfl
  refine ⟨_, e, hdump, mkdirP_contains fs "D/configs", ?_, he, ?_,
    strftimeYmd env.time, hc, strftimeYmd_ne_empty env.time⟩
  · rw [lookupK_setK_ne _ _ _ _ (by decide), lookupK_setK_self]
  · rw [lookupK_setK_self]

/-- C9 witness: the concrete dump on an empty file system with the
all-commands-exit-nonzero environment. -/
theorem c9_dump_config_scenario_witness :
    ∃ fs' e,
      dump_config envGitFails [("a", .vint 1)] "D" [] ⟨[], [], []⟩ = .ok fs'
      ∧ fs'.dirs.contains "D/configs" = true
      ∧ lookupK fs'.files "D/configs/_config.json"
          = some (.vdict [("a", .vint 1)])
      ∧ get_environment_vars envGitFails = .ok e
      ∧ lookupK fs'.files "D/configs/_environment.json" = some (.vdict e)
      ∧ ∃ s, lookupK e "creation_time" = some (.vstr s) ∧ s ≠ "" :=
  c9_dump_config_scenario ⟨[], [], []⟩ envGitFails (by decide) (by decide)
    (fun _ h => ProcResult.noConfusion h)

/-- C10.  parse_args_uargs never mutates the caller's arguments object: it
deep-copies it (line 204) and every `setattr` of the pipeline lands on the
copy, so after the call — ordinary return or exception alike — the object
at the caller's reference is unchanged, and the returned arguments record
is a different object than the caller's. -/
theorem c10_caller_args_unchanged (fs : ParsedFiles) (s : Store) (r : Nat)
    (u : List String) (h : r < s.objs.length) :
    readRef (parse_args_uargs_st fs s r u).1.objs r = readRef s.objs r
    ∧ ∀ r1 c, (parse_args_uargs_st fs s r u).2 = .ok (r1, c) → r1 ≠ r := by
  rw [parse_args_uargs_st]
  cases hp : parse_args_uargs fs ((readRef s.objs r).getD ⟨[]⟩) u with
  | ok p =>
    obtain ⟨a2, c⟩ := p
    constructor
    · rw [readRef_writeRef_ne _ _ _ _ (Nat.ne_of_gt h),
        readRef_append_left _ _ _ h]
    · intro r1 c' hok
      cases hok
      exact Nat.ne_of_gt h
  | error e =>
    constructor
    · exact readRef_append_left _ _ _ h
    · intro r1 c' hok
      exact Except.noConfusion hok

/-- C10 witness: a one-object store holding an arguments record with an
empty `configs` list, called with no override tokens. -/
theorem c10_caller_args_unchanged_witness :
    readRef (parse_args_uargs_st (fun _ => [])
        ⟨[⟨[("configs", .vlist [])]⟩]⟩ 0 []).1.objs 0
      = readRef (⟨[⟨[("configs", .vlist [])]⟩]⟩ : Store).objs 0
    ∧ ∀ r1 c, (parse_args_uargs_st (fun _ => [])
        ⟨[⟨[("configs", .vlist [])]⟩]⟩ 0 []).2 = .ok (r1, c) → r1 ≠ 0 :=
  c10_caller_args_unchanged (fun _ => [])
    ⟨[⟨[("configs", .vlist [])]⟩]⟩ 0 [] (by decide)

end CatalystSpec
